import Mathlib

/-!
Verification development for the help-center export pipeline
(`export_zendesk_helpcenter.py`).

Text is modelled as `List Char` (`Str`) inside the chunking algorithm so that
every function is executable and provable by structural recursion, and as
`String` in the record-normalization and fetch layers.  Every definition is a
direct translation of the corresponding Python code; loops whose termination
is data-driven in Python (regex scans, the pagination and retry loops) take an
explicit fuel argument that is always instantiated large enough that the
truncation case is unreachable.
-/

set_option maxRecDepth 4000

abbrev Str := List Char

/-- Python `str.strip` whitespace set (the ASCII part, which covers the data
appearing in this development): space, tab, newline, carriage return,
vertical tab, form feed. -/
def isPySpace (c : Char) : Bool :=
  c = ' ' || c = '\t' || c = '\n' || c = '\r' || c = '\x0b' || c = '\x0c'

/-- Python `str.strip()`: drop leading and trailing whitespace. -/
def pyStrip (s : Str) : Str :=
  ((s.dropWhile isPySpace).reverse.dropWhile isPySpace).reverse

/-- The non-whitespace characters of a string, in order.  Used to formalize
"equal up to whitespace differences": two strings are equal up to whitespace
differences exactly when their `visibleChars` agree. -/
def visibleChars (s : Str) : Str := s.filter (fun c => !isPySpace c)

/-- Translation of `num_tokens` in its fallback branch (`ENCODER = None`,
when `tiktoken` is unavailable): `max(1, math.ceil(len(s) / 4))`. -/
def num_tokens (s : Str) : Nat := max 1 ((s.length + 3) / 4)

/-- One match attempt of the first alternative `\n#{1,6} .*` of the block-split
regex, at a position just after a `'\n'`: one to six `'#'` characters followed
by a space, then the rest of the line.  Returns the matched text (without the
leading newline) and the remaining input. -/
def matchHeading (s : Str) : Option (Str × Str) :=
  let hashes := s.takeWhile (fun c => c == '#')
  let afterHashes := s.dropWhile (fun c => c == '#')
  if 1 ≤ hashes.length ∧ hashes.length ≤ 6 then
    match afterHashes with
    | ' ' :: rest2 =>
      let line := rest2.takeWhile (fun c => c != '\n')
      let restAfter := rest2.dropWhile (fun c => c != '\n')
      some (hashes ++ ' ' :: line, restAfter)
    | _ => none
  else none

/-- Scanner for `re.split(r"(\n#{1,6} .*|\n{2,})", markdown)`: the pattern has
one capturing group, so the separators are kept in the output list.  At each
`'\n'` the first alternative (heading line) is tried, then the second (a
greedy run of two or more newlines).  `fuel` bounds the scan and is
instantiated with the input length; each step consumes at least one
character, so the fuel-exhausted case is unreachable.  `startsNewline`
is the test for the second newline required by the `\n{2,}` alternative. -/
def startsNewline : Str → Bool
  | c :: _ => c == '\n'
  | [] => false

def splitAux (fuel : Nat) (s : Str) (acc : Str) : List Str :=
  match fuel, s with
  | _, [] => [acc.reverse]
  | 0, s => [acc.reverse ++ s]
  | fuel+1, c :: rest =>
    if c = '\n' then
      match matchHeading rest with
      | some (sep, rest') => acc.reverse :: ('\n' :: sep) :: splitAux fuel rest' []
      | none =>
        if startsNewline rest then
          acc.reverse :: (c :: rest).takeWhile (fun x => x == '\n') ::
            splitAux fuel ((c :: rest).dropWhile (fun x => x == '\n')) []
        else splitAux fuel rest ('\n' :: acc)
    else splitAux fuel rest (c :: acc)

/-- Translation of `re.split(r"(\n#{1,6} .*|\n{2,})", markdown)` in
`chunk_text`. -/
def blockSplit (markdown : Str) : List Str := splitAux markdown.length markdown []

/-- Python `b.strip().startswith("#")`. -/
def headingStart (b : Str) : Bool :=
  match pyStrip b with
  | c :: _ => c == '#'
  | [] => false

/-- Translation of the re-joining loop of `chunk_text` that keeps headings
attached to their content (the `cleaned_blocks` accumulation over `buf`). -/
def cleanGo : List Str → Str → List Str
  | [], buf => if pyStrip buf = [] then [] else [buf]
  | b :: bs, buf =>
    if b = [] then cleanGo bs buf
    else if headingStart b then
      (if pyStrip buf = [] then cleanGo bs b else buf :: cleanGo bs b)
    else cleanGo bs (buf ++ b)

/-- The `cleaned_blocks` list computed by `chunk_text`. -/
def cleaned_blocks (markdown : Str) : List Str := cleanGo (blockSplit markdown) []

/-- Lookbehind test of the sentence-split regex: previous character is one of
`.`, `!`, `?`. -/
def isSentEnd : Option Char → Bool
  | some '.' => true
  | some '!' => true
  | some '?' => true
  | _ => false

/-- Scanner for the sentence split as written in the SOURCE: the pattern is
the raw string `r"(?<=[.!?])\\s+"`, in which the regex escape `\\` matches a
literal backslash character, so a split happens only at a literal `'\'`
followed by a run of `'s'` characters and preceded by `.`, `!` or `?` — not
at ordinary sentence boundaries.  The pattern has no capturing group, so the
matched separator characters are removed from the output. -/
def sentSplitAux (fuel : Nat) (s : Str) (prev : Option Char) (acc : Str) : List Str :=
  match fuel, s with
  | _, [] => [acc.reverse]
  | 0, s => [acc.reverse ++ s]
  | fuel+1, c :: rest =>
    if isSentEnd prev && c == '\\' && (match rest with | 's' :: _ => true | _ => false) then
      acc.reverse :: sentSplitAux fuel (rest.dropWhile (fun x => x == 's')) (some 's') []
    else
      sentSplitAux fuel rest (some c) (c :: acc)

/-- Translation of the sentence split applied to oversized blocks. -/
def sentence_split (block : Str) : List Str := sentSplitAux block.length block none []

/-- Translation of the `sub` / `sub_tok` loop in `chunk_text` that packs the
sentences of an oversized block (`" ".join(sub).strip()` on each flush). -/
def packSentGo (maxTokens : Nat) : List Str → List Str → List Str → Nat → List Str
  | [], out, sub, _ =>
    if sub = [] then out else out ++ [pyStrip (List.intercalate [' '] sub)]
  | sent :: rest, out, sub, sub_tok =>
    let st := num_tokens sent
    if sub_tok + st > maxTokens ∧ sub ≠ [] then
      packSentGo maxTokens rest (out ++ [pyStrip (List.intercalate [' '] sub)]) [sent] st
    else
      packSentGo maxTokens rest out (sub ++ [sent]) (sub_tok + st)

/-- Hard split of a block whose token count exceeds `max_tokens` (source lines
84-97): sentence split, then greedy packing of the sentences. -/
def hardSplit (block : Str) (maxTokens : Nat) : List Str :=
  packSentGo maxTokens (sentence_split block) [] [] 0

/-- Translation of the main packing loop of `chunk_text` over
`cleaned_blocks`, with accumulators `chunks`, `cur` and `cur_tokens`
(source lines 79-109).  An oversized block is hard-split and its sub-chunks
appended to `chunks` immediately, leaving `cur` untouched; otherwise the
buffer is pre-flushed when adding the block would exceed `max_tokens`, the
block is appended, and the buffer is flushed once it reaches
`target_tokens`. -/
def packGo (targetTokens maxTokens : Nat) : List Str → List Str → List Str → Nat → List Str
  | [], chunks, cur, _ => if cur = [] then chunks else chunks ++ [pyStrip cur.flatten]
  | block :: rest, chunks, cur, cur_tokens =>
    let btok := num_tokens block
    if btok > maxTokens then
      packGo targetTokens maxTokens rest (chunks ++ hardSplit block maxTokens) cur cur_tokens
    else if cur_tokens + btok > maxTokens ∧ cur ≠ [] then
      (if btok ≥ targetTokens then
        packGo targetTokens maxTokens rest (chunks ++ [pyStrip cur.flatten] ++ [pyStrip block]) [] 0
      else
        packGo targetTokens maxTokens rest (chunks ++ [pyStrip cur.flatten]) [block] btok)
    else
      (if cur_tokens + btok ≥ targetTokens then
        packGo targetTokens maxTokens rest (chunks ++ [pyStrip (cur ++ [block]).flatten]) [] 0
      else
        packGo targetTokens maxTokens rest chunks (cur ++ [block]) (cur_tokens + btok))

/-- Final tidy of `chunk_text`: `[c.strip() for c in chunks if c and c.strip()]`. -/
def finalTidy : List Str → List Str
  | [] => []
  | c :: cs => if c ≠ [] ∧ pyStrip c ≠ [] then pyStrip c :: finalTidy cs else finalTidy cs

/-- Translation of `chunk_text(markdown, target_tokens, max_tokens)` (source
lines 57-111), with `num_tokens` in its character-count fallback branch. -/
def chunk_text (markdown : Str) (target_tokens max_tokens : Nat) : List Str :=
  finalTidy (packGo target_tokens max_tokens (cleaned_blocks markdown) [] [] 0)

/-! ### The decorated fetch function `get` -/

/-- One HTTP exchange as seen by `get`: the decoded outcome of
`requests.get`.  `rateLimited` is a 429 response carrying an optional
`Retry-After` header value (already parsed to seconds); `failure` is any
other non-success status with its body; `transportError` is an exception
raised by the transport layer (network error / timeout), which is not a
`ZendeskError`. -/
inductive Resp (α : Type) where
  | success (payload : α)
  | rateLimited (retry_after : Option Nat)
  | failure (status : Nat) (body : String)
  | transportError
deriving DecidableEq

/-- The errors `get` can raise: `zendesk` models `ZendeskError(msg)` (raised
both for 429 and for any other non-success status), `transport` models a
`requests` exception. -/
inductive GetError where
  | zendesk (msg : String)
  | transport
deriving DecidableEq

/-- The message built at source line 130:
`f"GET {url} -> {r.status_code}: {r.text[:300]}"` (truncated body excerpt). -/
def fetch_error_msg (url : String) (status : Nat) (body : String) : String :=
  "GET " ++ url ++ " -> " ++ toString status ++ ": " ++ body.take 300

/-- One attempt of the undecorated body of `get` (source lines 122-131),
returning the outcome together with the seconds slept in the rate-limit
branch (`time.sleep(retry_after)` with default 5 when the header is absent).
The back-off waits inserted by the retry decorator between attempts are not
counted here: they are not rate-limit sleep. -/
def get_attempt (url : String) : Resp α → Except GetError α × Nat
  | .success v => (.ok v, 0)
  | .rateLimited ra => (.error (.zendesk ("Rate limited")), ra.getD 5)
  | .failure st body => (.error (.zendesk (fetch_error_msg url st body)), 0)
  | .transportError => (.error .transport, 0)

/-- The retry predicate of the decorator:
`retry_if_exception_type(ZendeskError)`.  A `ZendeskError` is retryable; any
other exception (e.g. a transport error) is re-raised immediately. -/
def is_retryable : GetError → Bool
  | .zendesk _ => true
  | .transport => false

/-- The `tenacity` retry loop around the body of `get`:
`stop_after_attempt(6)`, `retry_if_exception_type(ZendeskError)`,
`reraise=True`.  `script n` is the response the server produces for attempt
`n` (0-based); `remaining` is the number of attempts still allowed; the
accumulated rate-limit sleep is carried along.  The `remaining = 0` case is
unreachable from `get`, which always starts with a positive budget. -/
def retry_loop (url : String) (script : Nat → Resp α) :
    Nat → Nat → Nat → Except GetError α × Nat
  | _, 0, sleepAcc => (.error .transport, sleepAcc)
  | attempt, rem+1, sleepAcc =>
    match get_attempt url (script attempt) with
    | (.ok v, s) => (.ok v, sleepAcc + s)
    | (.error e, s) =>
      if is_retryable e ∧ rem ≠ 0 then retry_loop url script (attempt+1) rem (sleepAcc + s)
      else (.error e, sleepAcc + s)

/-- Translation of the decorated `get` (source lines 116-131): up to 6
attempts against the scripted server, returning the final outcome and the
total rate-limit sleep. -/
def get (url : String) (script : Nat → Resp α) : Except GetError α × Nat :=
  retry_loop url script 0 6 0

/-- Server script that returns a rate-limited response (with the given
`Retry-After` values) for the first `cds.length` attempts and then
succeeds with payload `v`. -/
def rate_script (cds : List (Option Nat)) (v : α) (i : Nat) : Resp α :=
  match cds[i]? with
  | some c => Resp.rateLimited c
  | none => Resp.success v

/-- Sum of server-reported cool-downs, with the source's default of 5 seconds
when the `Retry-After` header is absent. -/
def cooldown_sum (cds : List (Option Nat)) : Nat := (cds.map (fun c => c.getD 5)).sum

/-! ### Pagination -/

/-- One JSON page as consumed by `paginate`: the value of the `key` items
array when present (`data.get(key, [])`), and the `next_page` link
(`data.get("next_page")`). -/
structure Page (α : Type) where
  items : Option (List α)
  next_page : Option String
deriving DecidableEq

/-- The `while next_page:` loop of `paginate` (source lines 133-140).  The
Python truthiness test stops on a missing/null link and also on an empty
string.  `get` is the (already-retried) fetch of one page; `fuel` bounds the
walk and is unreachable when it is at least the chain length. -/
def paginate_loop (fetchPage : String → Page α) : Nat → Option String → List α
  | _, none => []
  | 0, some _ => []
  | fuel+1, some url =>
    if url.isEmpty then []
    else (fetchPage url).items.getD [] ++ paginate_loop fetchPage fuel (fetchPage url).next_page

/-- Translation of `paginate(url, key)`. -/
def paginate (fetchPage : String → Page α) (fuel : Nat) (url : String) : List α :=
  paginate_loop fetchPage fuel (some url)

/-- The server serves a finite chain of pages: request `i` of the chain is
addressed by `urls[i]` (a non-empty string, so the Python truthiness test
passes), returns `pages[i]`, and each page links to the next url, the last
page carrying no `next_page`. -/
def pages_chain (fetchPage : String → Page α) : List String → List (Page α) → Prop
  | [u], [p] => ¬ u.isEmpty = true ∧ fetchPage u = p ∧ p.next_page = none
  | u :: u2 :: us, p :: ps =>
      ¬ u.isEmpty = true ∧ fetchPage u = p ∧ p.next_page = some u2 ∧
        pages_chain fetchPage (u2 :: us) ps
  | _, _ => False

/-! ### Record normalization -/

/-- A help-center category (`{id, name}`, unused fields omitted). -/
structure Category where
  id : Int
  name : String
deriving DecidableEq

/-- A help-center section (`{id, name, category_id}`). -/
structure Section where
  id : Int
  name : String
  category_id : Int
deriving DecidableEq

/-- The fields of an article used by breadcrumb resolution and
normalization.  Optional fields model Python's `a.get(...)`, which yields
`None` when the key is missing or null.  The remaining metadata fields of
the source (`label_names`, `draft`, ...) are copied verbatim into every
record and are not modelled. -/
structure Article where
  id : Int
  title : Option String
  body : Option String
  locale : Option String
  section_id : Option Int
deriving DecidableEq

/-- One translation object: `t["locale"]` is accessed by direct indexing in
the source (always present), `t.get("title")` and `t.get("body")` are
optional. -/
structure Translation where
  locale : String
  title : Option String
  body : Option String
deriving DecidableEq

/-- The breadcrumb of an article (all four fields independently nullable). -/
structure Breadcrumb where
  category_id : Option Int
  category_name : Option String
  section_id : Option Int
  section_name : Option String
deriving DecidableEq

/-- The lookup `sections.get(article.get("section_id"))`: a `None` key never
matches. -/
def section_lookup (a : Article) (sections : Int → Option Section) : Option Section :=
  match a.section_id with
  | none => none
  | some sid => sections sid

/-- Translation of `build_breadcrumb` (source lines 168-176).  The section
and category indexes are modelled as the lookup functions of the id-keyed
dicts built by `fetch_sections` / `fetch_categories`
(`dict.get`, returning `None` when absent). -/
def build_breadcrumb (a : Article) (sections : Int → Option Section)
    (categories : Int → Option Category) : Breadcrumb :=
  let sec := section_lookup a sections
  let cat := match sec with
    | none => none
    | some s => categories s.category_id
  { category_id := cat.map (fun c => c.id)
    category_name := cat.map (fun c => c.name)
    section_id := sec.map (fun s => s.id)
    section_name := sec.map (fun s => s.name) }

/-- The per-locale output record of `normalize_article_record`, restricted to
the fields the claims are about (the other `base_meta` fields are copied
verbatim from the article into every record; `attachments` comes from a
separate network fetch and `url` from the configured base URL, neither of
which varies with the claims' inputs). -/
structure NormalizedRecord where
  article_id : Int
  locale : Option String
  title : Option String
  body_html : String
  body_markdown : String
  category_id : Option Int
  category_name : Option String
  section_id : Option Int
  section_name : Option String
deriving DecidableEq

/-- Python truthiness of an optional string: `None` and `""` are falsy. -/
def py_truthy : Option String → Bool
  | none => false
  | some s => !s.isEmpty

/-- Python `x or y` on optional strings. -/
def py_or (x y : Option String) : Option String := if py_truthy x then x else y

/-- Python `x or ""`: the string value of `x` if truthy, else the empty
string. -/
def py_or_empty (x : Option String) : String := ((py_or x (some "")).getD "")

/-- Lookup in `trans_map = {t["locale"]: t for t in translations}`: a dict
comprehension keeps the last entry for a duplicated key, so lookup finds the
last translation with the given locale.  A `None` key never matches. -/
def trans_map_get (translations : List Translation) (loc : Option String) : Option Translation :=
  match loc with
  | none => none
  | some l => translations.reverse.find? (fun t => t.locale == l)

/-- The locale set `{a.get("locale")} | set(trans_map.keys())` of
`normalize_article_record`, as a duplicate-free list.  Python iterates a
`set` in an unspecified order; the model fixes one concrete order (the
claims about the locale set are order-independent). -/
def locale_set (a : Article) (translations : List Translation) : List (Option String) :=
  (a.locale :: translations.map (fun t => some t.locale)).dedup

/-- Translation of `normalize_article_record` (source lines 178-237): one
record per distinct locale, with the title/body fallback chain
`(t.get(...) if t else None) or a.get(...)` and, for the body, a final
`or ""`.  `h2m` is the external HTML-to-markdown capability
(`html_to_markdown`). -/
def normalize_article_record (a : Article) (translations : List Translation)
    (sections : Int → Option Section) (categories : Int → Option Category)
    (h2m : String → String) : List NormalizedRecord :=
  let bc := build_breadcrumb a sections categories
  (locale_set a translations).map (fun loc =>
    let t := trans_map_get translations loc
    let title := py_or (t.bind (fun tr => tr.title)) a.title
    let body := py_or_empty (py_or (t.bind (fun tr => tr.body)) a.body)
    { article_id := a.id
      locale := loc
      title := title
      body_html := body
      body_markdown := h2m body
      category_id := bc.category_id
      category_name := bc.category_name
      section_id := bc.section_id
      section_name := bc.section_name })

/-! ### Output streams -/

/-- Translation of the per-record write in `main` (source lines 267 and 289):
the serialized record followed by the two-character literal `\` `n` — the
Python source appends the string literal `"\\n"`, i.e. a backslash and the
letter `n`, NOT a newline character (unlike the correctly escaped `"\n"`
literals elsewhere in the same file, e.g. lines 44 and 49). -/
def write_record (serialized : String) : String := serialized ++ "\\n"

/-- The byte stream produced by writing a list of serialized records to one
of the two output files. -/
def write_stream (records : List String) : String :=
  String.join (records.map write_record)

/-! ### The allow-list filter of the pipeline driver -/

/-- The category allow-list constant of the source (line 28). -/
def ALLOWED_CATEGORIES : List String :=
  ["eTMF Connect", "RegDocs Connect", "SOP Connect", "Training Connect",
   "CAPA Connect", "Change Connect", "Supplier Connect", "Audit Connect"]

/-- Modelled from the spec: the resolved category name used by the driver's
filter.  The filter block of `main` (source lines 255-263) is indented
outside its enclosing `try` statement — the file does not parse — so the
name resolution is modelled from the spec's description ("the resolved
category name", null resolving to no match, which the source expresses as
the default `""`). -/
def resolved_category_name (a : Article) (sections : Int → Option Section)
    (categories : Int → Option Category) : String :=
  ((build_breadcrumb a sections categories).category_name).getD ""

/-- Modelled from the spec: the resolved section name used by the driver's
filter (see `resolved_category_name`). -/
def resolved_section_name (a : Article) (sections : Int → Option Section)
    (categories : Int → Option Category) : String :=
  ((build_breadcrumb a sections categories).section_name).getD ""

/-- Modelled from the spec: the allow-list test
`category not in ALLOWED_CATEGORIES and section not in ALLOWED_SECTIONS`
(negated: keep when either matches).  `ALLOWED_SECTIONS` is referenced by
the source but defined nowhere, so the section allow-list is an explicit
configuration input here, as §9 of the spec demands. -/
def allow_article (category sectionName : String)
    (allowedCats allowedSecs : List String) : Bool :=
  decide (category ∈ allowedCats) || decide (sectionName ∈ allowedSecs)

/-- Modelled from the spec: the article records the driver writes for one
article — all per-locale records when the filter keeps it, none when both
allow-list tests fail (the article is skipped). -/
def article_outputs (a : Article) (translations : List Translation)
    (sections : Int → Option Section) (categories : Int → Option Category)
    (h2m : String → String) (allowedCats allowedSecs : List String) :
    List NormalizedRecord :=
  if allow_article (resolved_category_name a sections categories)
      (resolved_section_name a sections categories) allowedCats allowedSecs then
    normalize_article_record a translations sections categories h2m
  else []

/-- Modelled from the spec: the chunk texts the driver writes for one
article — `chunk_text(rec["body_markdown"], 800, 1200)` for each surviving
per-locale record. -/
def chunk_outputs (a : Article) (translations : List Translation)
    (sections : Int → Option Section) (categories : Int → Option Category)
    (h2m : String → String) (allowedCats allowedSecs : List String) : List Str :=
  ((article_outputs a translations sections categories h2m allowedCats allowedSecs).map
    (fun r => chunk_text r.body_markdown.toList 800 1200)).flatten

/-! ### Concrete inputs used by the evaluation theorems, counterexamples
and witnesses -/

/-- Building block of the C1 failing input: ten characters containing an
ordinary sentence boundary (a period followed by a space). -/
def c1_block : Str := "aaaaaaa. a".toList

/-- The C1 failing input: a 5000-character markdown document with no
newlines (hence a single block) and 500 sentence boundaries.  Its token
count under the fallback tokenizer is `ceil(5000 / 4) = 1250 > 1200`. -/
def c1_input : Str := (List.replicate 500 c1_block).flatten

/-- A small document with three heading-delimited blocks whose middle block's
token count exceeds a `max_tokens` of 4: blocks are re-ordered by the
hard-split path. -/
def c6_bad_input : Str := "# A\naaaa\n# B\nbbbbbbbbbbbbbbbb\n# C\ncc".toList

/-- A small well-behaved document (every cleaned block far below the default
`max_tokens`), used as the witness input of the amended C6 theorem. -/
def c6_ok_input : Str := "# T\nhello there.\n\nsecond paragraph".toList

/-- Witness article for the breadcrumb claims: its `section_id` points at a
section absent from every index used with it. -/
def a9 : Article :=
  { id := 1, title := some ("T"), body := some ("B"), locale := some ("en-us"),
    section_id := some 42 }

/-- First page of the witness pagination chain (note the duplicated item 2,
also present on the second page: no deduplication happens). -/
def c8_p1 : Page Nat := { items := some [1, 2, 2], next_page := some ("b") }

/-- Second and last page of the witness pagination chain. -/
def c8_p2 : Page Nat := { items := some [2, 3], next_page := none }

/-- Witness page server: two chained pages. -/
def c8_fetch (u : String) : Page Nat :=
  if u = "a" then c8_p1 else if u = "b" then c8_p2 else { items := none, next_page := none }

/-- Witness article for the allow-list filter: resolves to category
"SOP Connect". -/
def a5 : Article :=
  { id := 7, title := some ("T"), body := some ("<p>x</p>"), locale := some ("en-us"),
    section_id := some 100 }

/-- Witness section index for the allow-list filter. -/
def sections5 (i : Int) : Option Section :=
  if i = 100 then some { id := 100, name := "Install", category_id := 200 } else none

/-- Witness category index for the allow-list filter. -/
def categories5 (i : Int) : Option Category :=
  if i = 200 then some { id := 200, name := "SOP Connect" } else none

/-- Witness article for the normalization claims. -/
def a4 : Article :=
  { id := 1, title := some ("Base Title"), body := some ("<p>EN body</p>"),
    locale := some ("en-us"), section_id := none }

/-- Witness translations: a French translation with title and body, and a
German translation whose body is empty (falls back to the article body). -/
def ts4 : List Translation :=
  [{ locale := "fr", title := some ("Titre"), body := some ("<p>FR</p>") },
   { locale := "de", title := some ("Titel"), body := some ("") }]

/-- The French translation of `ts4`. -/
def t_fr4 : Translation := { locale := "fr", title := some ("Titre"), body := some ("<p>FR</p>") }

/-- The French record `normalize_article_record` produces for `a4` / `ts4`
with empty indexes and the identity markdown conversion. -/
def rec_fr4 : NormalizedRecord :=
  { article_id := 1, locale := some ("fr"), title := some ("Titre"),
    body_html := "<p>FR</p>", body_markdown := "<p>FR</p>",
    category_id := none, category_name := none, section_id := none, section_name := none }

/-- Witness article for C10: its own locale is "en". -/
def a10 : Article :=
  { id := 2, title := some ("Base"), body := some ("<p>B1</p>"), locale := some ("en"),
    section_id := none }

/-- A translation whose locale coincides with the article's own locale. -/
def t10 : Translation := { locale := "en", title := some ("Override"), body := some ("<p>B2</p>") }

/-- The single record `normalize_article_record` produces for `a10` /
`[t10]`: the translation overrides the base title and body. -/
def rec10 : NormalizedRecord :=
  { article_id := 2, locale := some ("en"), title := some ("Override"),
    body_html := "<p>B2</p>", body_markdown := "<p>B2</p>",
    category_id := none, category_name := none, section_id := none, section_name := none }

/-- Statement vocabulary for the normalization claims: the claim's title
rule, "the matching translation's title if present and non-empty, else the
article's title". -/
def title_fallback (t : Translation) (a : Article) : Option String :=
  match t.title with
  | some s => if s.isEmpty then a.title else some s
  | none => a.title

/-- Statement vocabulary for the normalization claims: the claim's body
rule, "the matching translation's body if present and non-empty, else the
article's body, else the empty string". -/
def body_fallback (t : Translation) (a : Article) : String :=
  match t.body with
  | some s => if s.isEmpty then a.body.getD "" else s
  | none => a.body.getD ""


/-! ## Claim theorems -/

/-- C2: refuted by evaluation — the write calls append the two-character
sequence backslash-`n`, not a newline, so the streams are NOT
newline-delimited: writing two records produces a stream containing no
newline character at all (both objects land on a single line). -/
theorem write_stream_no_newline_eval :
    write_stream [("a"), ("b")] = ("a\\nb\\n") ∧
    '\n' ∉ (write_stream [("a"), ("b")]).toList ∧
    (write_stream [("a"), ("b")]).toList.count '\n' = 0 := by
  refine ⟨rfl, ?_, ?_⟩ <;> decide

/-- C3 counterexample: a non-success, non-rate-limit response (a 404) on the
first attempt does not make `get` fail immediately — the raised
`ZendeskError` is retryable for the decorator, the second attempt runs and
its success is returned.  Under the claim, `get` would have failed with a
fetch error carrying status 404. -/
theorem get_404_retried_counterexample :
    get ("u") (fun i => if i = 0 then Resp.failure 404 ("missing") else Resp.success (42 : Nat)) =
      (Except.ok 42, 0) := rfl

/-- C3 amended: a non-success non-rate-limit status raises `ZendeskError`
carrying the status code and the 300-character body excerpt, but this error
IS retried (same exception type as the rate-limit error) up to the
6-attempt budget, the last error being re-raised; it is the transport-level
errors that are NOT retried and propagate immediately. -/
theorem get_failure_retry_amended {α : Type} (url : String) (st : Nat) (body : String) (v : α) :
    get url (fun _ => (Resp.failure st body : Resp α)) =
      (Except.error (GetError.zendesk (fetch_error_msg url st body)), 0) ∧
    get url (fun i => if i = 0 then Resp.failure st body else Resp.success v) =
      (Except.ok v, 0) ∧
    get url (fun i => if i = 0 then Resp.transportError else Resp.success v) =
      (Except.error GetError.transport, 0) :=
  ⟨rfl, rfl, rfl⟩

/-- C9: a dangling (or absent) section reference yields a breadcrumb whose
four fields are all null — and hence records of `normalize_article_record`
with all four fields null — and a section whose category is dangling yields
null category fields with the section fields still resolved. -/
theorem breadcrumb_null_safety (a : Article) (sections : Int → Option Section)
    (categories : Int → Option Category) (translations : List Translation)
    (h2m : String → String) :
    (section_lookup a sections = none →
      build_breadcrumb a sections categories =
        { category_id := none, category_name := none,
          section_id := none, section_name := none } ∧
      ∀ r ∈ normalize_article_record a translations sections categories h2m,
        r.category_id = none ∧ r.category_name = none ∧
        r.section_id = none ∧ r.section_name = none) ∧
    (∀ s, section_lookup a sections = some s →
      categories s.category_id = none →
      (build_breadcrumb a sections categories).category_id = none ∧
      (build_breadcrumb a sections categories).category_name = none ∧
      (build_breadcrumb a sections categories).section_id = some s.id ∧
      (build_breadcrumb a sections categories).section_name = some s.name) := by
  constructor
  · intro h
    have hbc : build_breadcrumb a sections categories =
        { category_id := none, category_name := none,
          section_id := none, section_name := none } := by
      simp [build_breadcrumb, h]
    refine ⟨hbc, ?_⟩
    intro r hr
    simp only [normalize_article_record, List.mem_map] at hr
    obtain ⟨loc, _, rfl⟩ := hr
    simp [hbc]
  · intro s hs hc
    simp [build_breadcrumb, hs, hc]

/-- C9 witness: the theorem applied to a concrete article whose
`section_id = 42` is absent from the (empty) section index. -/
theorem breadcrumb_null_safety_witness :
    build_breadcrumb a9 (fun _ => none) (fun _ => none) =
      { category_id := none, category_name := none,
        section_id := none, section_name := none } :=
  ((breadcrumb_null_safety a9 (fun _ => none) (fun _ => none) [] id).1 rfl).1

/-- C8: walking a well-formed chain of `P` pages returns exactly the
concatenation of the pages' item arrays — every item, in page order and
within-page order, with no deduplication. -/
theorem paginate_complete {α : Type} (fetchPage : String → Page α) (pages : List (Page α)) :
    ∀ (u : String) (us : List String) (fuel : Nat),
      pages_chain fetchPage (u :: us) pages →
      pages.length ≤ fuel →
      paginate fetchPage fuel u = (pages.map (fun p => p.items.getD [])).flatten := by
  induction pages with
  | nil =>
    intro u us fuel hc _
    exact absurd hc (by cases us <;> exact fun h => h)
  | cons p ps ih =>
    intro u us fuel hc hfuel
    cases us with
    | nil =>
      cases ps with
      | nil =>
        obtain ⟨hne, hget, hnone⟩ := hc
        cases fuel with
        | zero => simp at hfuel
        | succ f =>
          simp only [paginate, paginate_loop, if_neg hne, hget, hnone]
          simp
      | cons p2 ps' => exact absurd hc (fun h => h)
    | cons u2 us' =>
      obtain ⟨hne, hget, hnext, hchain⟩ := hc
      cases fuel with
      | zero => simp at hfuel
      | succ f =>
        simp only [paginate, paginate_loop, if_neg hne, hget, hnext]
        have := ih u2 us' f hchain (by simpa using Nat.lt_succ_iff.mp (Nat.lt_of_lt_of_le (Nat.lt_succ_self _) hfuel))
        simp only [paginate] at this
        rw [this]
        simp

/-- C8 witness: a concrete two-page chain of five items (with a duplicate
crossing the page boundary) is returned in full and in order. -/
theorem paginate_complete_witness :
    paginate c8_fetch 2 ("a") = [1, 2, 2, 2, 3] := by
  have h := paginate_complete c8_fetch [c8_p1, c8_p2] ("a") [("b")] 2
    ⟨by decide, rfl, rfl, by decide, rfl, rfl⟩ (by decide)
  simpa [c8_p1, c8_p2] using h

/-- C5: the allow-list filter as the spec describes it — an article whose
resolved category name is in neither allow-list and whose resolved section
name is in neither produces zero article records and zero chunk records,
while an article matching either list has all its per-locale records
written.  (The source's own filter block cannot execute: it is indented
outside its `try` statement and references the undefined name
`ALLOWED_SECTIONS`.) -/
theorem allow_list_filter_model (a : Article) (translations : List Translation)
    (sections : Int → Option Section) (categories : Int → Option Category)
    (h2m : String → String) (allowedCats allowedSecs : List String) :
    (resolved_category_name a sections categories ∉ allowedCats →
     resolved_section_name a sections categories ∉ allowedSecs →
     article_outputs a translations sections categories h2m allowedCats allowedSecs = [] ∧
     chunk_outputs a translations sections categories h2m allowedCats allowedSecs = []) ∧
    ((resolved_category_name a sections categories ∈ allowedCats ∨
      resolved_section_name a sections categories ∈ allowedSecs) →
     article_outputs a translations sections categories h2m allowedCats allowedSecs =
       normalize_article_record a translations sections categories h2m) := by
  constructor
  · intro h1 h2
    have hfilter : allow_article (resolved_category_name a sections categories)
        (resolved_section_name a sections categories) allowedCats allowedSecs = false := by
      simp [allow_article, h1, h2]
    constructor
    · simp [article_outputs, hfilter]
    · simp [chunk_outputs, article_outputs, hfilter]
  · intro h
    have hfilter : allow_article (resolved_category_name a sections categories)
        (resolved_section_name a sections categories) allowedCats allowedSecs = true := by
      rcases h with h | h <;> simp [allow_article, h]
    simp [article_outputs, hfilter]

/-- C5 witness: a concrete article resolving to category "SOP Connect"
passes the filter with the source's `ALLOWED_CATEGORIES` (and an empty
section allow-list), so its records are written. -/
theorem allow_list_filter_model_witness :
    article_outputs a5 [] sections5 categories5 id ALLOWED_CATEGORIES [] =
      normalize_article_record a5 [] sections5 categories5 id :=
  (allow_list_filter_model a5 [] sections5 categories5 id ALLOWED_CATEGORIES []).2
    (Or.inl (by decide))

/-! ## Normalization helper lemmas -/

/-- Helper: `find?` with the key predicate finds exactly the given element
when the mapped keys are duplicate-free. -/
theorem find_eq_of_map_nodup {α β : Type} [DecidableEq β] (f : α → β) (l : List α) (t : α)
    (hnd : (l.map f).Nodup) (ht : t ∈ l) :
    l.find? (fun x => f x == f t) = some t := by
  induction l with
  | nil => cases ht
  | cons a l ih =>
    rw [List.map_cons, List.nodup_cons] at hnd
    rcases List.mem_cons.mp ht with rfl | h
    · rw [List.find?_cons_of_pos _ (by simp)]
    · have hfa : ¬ f a = f t := fun he => hnd.1 (he ▸ List.mem_map_of_mem f h)
      rw [List.find?_cons_of_neg _ (by simp [hfa])]
      exact ih hnd.2 h

/-- Helper: with duplicate-free translation locales, the dict lookup finds
the unique translation with the looked-up locale. -/
theorem trans_map_get_eq (translations : List Translation) (t : Translation)
    (hnd : (translations.map Translation.locale).Nodup) (ht : t ∈ translations) :
    trans_map_get translations (some t.locale) = some t := by
  have h1 : (translations.reverse.map Translation.locale).Nodup := by
    rw [List.map_reverse]
    exact List.nodup_reverse.mpr hnd
  have h2 : t ∈ translations.reverse := List.mem_reverse.mpr ht
  exact find_eq_of_map_nodup Translation.locale translations.reverse t h1 h2

/-- Helper: the dict lookup misses when no translation has the looked-up
locale. -/
theorem trans_map_get_none (translations : List Translation) (loc : Option String)
    (h : ∀ t ∈ translations, loc ≠ some t.locale) :
    trans_map_get translations loc = none := by
  cases loc with
  | none => rfl
  | some l =>
    refine List.find?_eq_none.mpr ?_
    intro t ht
    have hne := h t (List.mem_reverse.mp ht)
    simp only [beq_iff_eq]
    intro he
    exact hne (by rw [he])

/-- Helper: the Python `or` chain for the title agrees with the claim's
fallback rule. -/
theorem title_fallback_eq (t : Translation) (a : Article) :
    py_or t.title a.title = title_fallback t a := by
  cases ht : t.title with
  | none => simp [py_or, py_truthy, title_fallback, ht]
  | some s =>
    by_cases h : s.isEmpty <;> simp [py_or, py_truthy, title_fallback, ht, h]

/-- Helper: the Python `or` chain for the body agrees with the claim's
fallback rule. -/
theorem body_fallback_eq (t : Translation) (a : Article) :
    py_or_empty (py_or t.body a.body) = body_fallback t a := by
  cases ht : t.body with
  | none =>
    cases ha : a.body with
    | none => simp [py_or_empty, py_or, py_truthy, body_fallback, ht, ha]
    | some sb =>
      by_cases h : sb.isEmpty
      · have : sb = "" := (String.isEmpty_iff _).mp h
        simp [py_or_empty, py_or, py_truthy, body_fallback, ht, ha, h, this]
      · simp [py_or_empty, py_or, py_truthy, body_fallback, ht, ha, h]
  | some s =>
    by_cases h : s.isEmpty
    · cases ha : a.body with
      | none => simp [py_or_empty, py_or, py_truthy, body_fallback, ht, ha, h]
      | some sb =>
        by_cases hb : sb.isEmpty
        · have : sb = "" := (String.isEmpty_iff _).mp hb
          simp [py_or_empty, py_or, py_truthy, body_fallback, ht, ha, h, hb, this]
        · simp [py_or_empty, py_or, py_truthy, body_fallback, ht, ha, h, hb]
    · simp [py_or_empty, py_or, py_truthy, body_fallback, ht, h]

/-- Helper: with no matching translation, the body chain reduces to the
article's body (or the empty string). -/
theorem py_or_empty_article (a : Article) :
    py_or_empty (py_or none a.body) = a.body.getD "" := by
  cases ha : a.body with
  | none => simp [py_or_empty, py_or, py_truthy, ha]
  | some s =>
    by_cases h : s.isEmpty
    · have : s = "" := (String.isEmpty_iff _).mp h
      simp [py_or_empty, py_or, py_truthy, ha, h, this]
    · simp [py_or_empty, py_or, py_truthy, ha, h]

/-- Helper: the locales of the records are exactly `locale_set`. -/
theorem normalize_map_locale (a : Article) (translations : List Translation)
    (sections : Int → Option Section) (categories : Int → Option Category)
    (h2m : String → String) :
    (normalize_article_record a translations sections categories h2m).map
      (fun r => r.locale) = locale_set a translations := by
  simp [normalize_article_record, Function.comp_def]

/-- C4: `normalize_article_record` emits exactly one record per locale of
`{article.locale} ∪ {t.locale}` (duplicate-free), and each record's title
and body follow the present-and-non-empty fallback rules against the
matching translation (unique when translation locales are duplicate-free),
falling back to the article's own title/body (body defaulting to the empty
string) when no translation matches. -/
theorem normalize_locale_union (a : Article) (translations : List Translation)
    (sections : Int → Option Section) (categories : Int → Option Category)
    (h2m : String → String) :
    ((normalize_article_record a translations sections categories h2m).map
      (fun r => r.locale)).Nodup ∧
    (∀ l, l ∈ (normalize_article_record a translations sections categories h2m).map
      (fun r => r.locale) ↔ (l = a.locale ∨ ∃ t ∈ translations, l = some t.locale)) ∧
    ((translations.map Translation.locale).Nodup →
      ∀ r ∈ normalize_article_record a translations sections categories h2m,
        ∀ t ∈ translations, r.locale = some t.locale →
          r.title = title_fallback t a ∧ r.body_html = body_fallback t a) ∧
    (∀ r ∈ normalize_article_record a translations sections categories h2m,
      (∀ t ∈ translations, r.locale ≠ some t.locale) →
      r.title = a.title ∧ r.body_html = a.body.getD "") := by
  refine ⟨?_, ?_, ?_, ?_⟩
  · rw [normalize_map_locale]
    exact List.nodup_dedup _
  · intro l
    rw [normalize_map_locale]
    simp [locale_set, List.mem_dedup, eq_comm]
  · intro hnd r hr t ht hl
    simp only [normalize_article_record, List.mem_map] at hr
    obtain ⟨loc, _, rfl⟩ := hr
    have hl' : loc = some t.locale := hl
    constructor
    · show py_or ((trans_map_get translations loc).bind fun tr => tr.title) a.title =
        title_fallback t a
      rw [hl', trans_map_get_eq translations t hnd ht]
      simp only [Option.some_bind]
      exact title_fallback_eq t a
    · show py_or_empty (py_or ((trans_map_get translations loc).bind fun tr => tr.body) a.body) =
        body_fallback t a
      rw [hl', trans_map_get_eq translations t hnd ht]
      simp only [Option.some_bind]
      exact body_fallback_eq t a
  · intro r hr hnone
    simp only [normalize_article_record, List.mem_map] at hr
    obtain ⟨loc, _, rfl⟩ := hr
    have hmiss : trans_map_get translations loc = none :=
      trans_map_get_none translations loc (fun t ht => hnone t ht)
    constructor
    · show py_or ((trans_map_get translations loc).bind fun tr => tr.title) a.title = a.title
      rw [hmiss]
      rfl
    · show py_or_empty (py_or ((trans_map_get translations loc).bind fun tr => tr.body) a.body) =
        a.body.getD ""
      rw [hmiss]
      exact py_or_empty_article a

/-- C4 witness: the theorem applied to a concrete article with French and
German translations; the French record takes the translation's title and
body. -/
theorem normalize_locale_union_witness :
    rec_fr4.title = title_fallback t_fr4 a4 ∧ rec_fr4.body_html = body_fallback t_fr4 a4 :=
  (normalize_locale_union a4 ts4 (fun _ => none) (fun _ => none) id).2.2.1
    (by decide) rec_fr4 (by decide) t_fr4 (by decide) rfl

/-- C10: when a translation's locale coincides with the article's own locale
(a case the spec rules out), the base-locale record takes that translation's
title and body (under the fallback rules) instead of the article's own. -/
theorem normalize_base_locale_translation (a : Article) (translations : List Translation)
    (sections : Int → Option Section) (categories : Int → Option Category)
    (h2m : String → String) (t : Translation)
    (hnd : (translations.map Translation.locale).Nodup)
    (ht : t ∈ translations) (hloc : a.locale = some t.locale) :
    ∀ r ∈ normalize_article_record a translations sections categories h2m,
      r.locale = a.locale →
      r.title = title_fallback t a ∧ r.body_html = body_fallback t a := by
  intro r hr hrl
  simp only [normalize_article_record, List.mem_map] at hr
  obtain ⟨loc, _, rfl⟩ := hr
  have hl' : loc = some t.locale := by
    have : loc = a.locale := hrl
    rw [this, hloc]
  constructor
  · show py_or ((trans_map_get translations loc).bind fun tr => tr.title) a.title =
      title_fallback t a
    rw [hl', trans_map_get_eq translations t hnd ht]
    simp only [Option.some_bind]
    exact title_fallback_eq t a
  · show py_or_empty (py_or ((trans_map_get translations loc).bind fun tr => tr.body) a.body) =
      body_fallback t a
    rw [hl', trans_map_get_eq translations t hnd ht]
    simp only [Option.some_bind]
    exact body_fallback_eq t a

/-- C10 witness: a concrete article with locale "en" and a translation also
for "en" — the emitted record carries the translation's title and body, not
the article's. -/
theorem normalize_base_locale_translation_witness :
    rec10.title = some ("Override") ∧ rec10.body_html = ("<p>B2</p>") := by
  have h := normalize_base_locale_translation a10 [t10] (fun _ => none) (fun _ => none) id t10
    (by decide) (by decide) rfl rec10 (by decide) rfl
  exact ⟨h.1.trans (by decide), h.2.trans (by decide)⟩

/-! ## Retry-loop helper lemmas -/

/-- Helper: running the retry loop against a script that rate-limits for the
next `cds.length` attempts and then succeeds returns the success and adds
exactly the sum of the (defaulted) cool-downs to the accumulated sleep, for
any remaining attempt budget strictly larger than `cds.length`. -/
theorem retry_loop_rate_limited {α : Type} (url : String) (script : Nat → Resp α) (v : α) :
    ∀ (cds : List (Option Nat)) (a rem acc : Nat),
      cds.length < rem →
      (∀ i, i < cds.length → script (a + i) = Resp.rateLimited (cds.getD i none)) →
      script (a + cds.length) = Resp.success v →
      retry_loop url script a rem acc = (Except.ok v, acc + cooldown_sum cds) := by
  intro cds
  induction cds with
  | nil =>
    intro a rem acc hlen _ hsucc
    cases rem with
    | zero => simp at hlen
    | succ n =>
      simp only [List.length_nil, Nat.add_zero] at hsucc
      simp [retry_loop, hsucc, get_attempt, cooldown_sum]
  | cons c cds ih =>
    intro a rem acc hlen hrate hsucc
    cases rem with
    | zero => simp at hlen
    | succ n =>
      have h0 : script a = Resp.rateLimited c := by
        have := hrate 0 (by simp)
        simpa using this
      have hn : n ≠ 0 := by
        simp only [List.length_cons] at hlen
        omega
      have hrec := ih (a + 1) n (acc + c.getD 5)
        (by simp only [List.length_cons] at hlen; omega)
        (fun i hi => by
          have := hrate (i + 1) (by simp only [List.length_cons]; omega)
          simpa [Nat.add_assoc, Nat.add_comm 1 i] using this)
        (by
          have : a + 1 + cds.length = a + (cds.length + 1) := by omega
          rw [this]
          simpa using hsucc)
      simp only [retry_loop, h0, get_attempt, is_retryable]
      rw [if_pos ⟨trivial, hn⟩]
      rw [hrec]
      have : cooldown_sum (c :: cds) = c.getD 5 + cooldown_sum cds := by
        simp [cooldown_sum]
      rw [this, Nat.add_assoc]

/-- C7: if the server rate-limits the first `k < 6` attempts and then
succeeds, `get` returns the success payload and the total rate-limit sleep
is the sum of the server-reported cool-downs (5 seconds where the
`Retry-After` header is absent); if all 6 attempts are rate-limited, `get`
re-raises the last error, having slept the six reported cool-downs. -/
theorem rate_limit_retry {α : Type} (url : String) (v : α) :
    (∀ cds : List (Option Nat), cds.length < 6 →
      get url (rate_script cds v) = (Except.ok v, cooldown_sum cds)) ∧
    (∀ cd : Nat → Option Nat,
      get url (fun i => (Resp.rateLimited (cd i) : Resp α)) =
        (Except.error (GetError.zendesk ("Rate limited")),
          cooldown_sum [cd 0, cd 1, cd 2, cd 3, cd 4, cd 5])) := by
  constructor
  · intro cds hlen
    have h := retry_loop_rate_limited url (rate_script cds v) v cds 0 6 0 hlen
      (fun i hi => by
        simp only [rate_script, Nat.zero_add]
        rw [List.getElem?_eq_getElem hi, List.getD_eq_getElem cds none hi])
      (by simp [rate_script, List.getElem?_eq_none_iff])
    show retry_loop url (rate_script cds v) 0 6 0 = (Except.ok v, cooldown_sum cds)
    rw [h, Nat.zero_add]
  · intro cd
    have h : get url (fun i => (Resp.rateLimited (cd i) : Resp α)) =
        (Except.error (GetError.zendesk ("Rate limited")),
          0 + (cd 0).getD 5 + (cd 1).getD 5 + (cd 2).getD 5 + (cd 3).getD 5 +
            (cd 4).getD 5 + (cd 5).getD 5) := rfl
    rw [h]
    simp only [cooldown_sum, List.map_cons, List.map_nil, List.sum_cons, List.sum_nil,
      Prod.mk.injEq, true_and]
    omega

/-- C7 witness: two rate-limited responses (cool-down 2 seconds, then a
missing header defaulting to 5) followed by a success: `get` returns the
payload and slept 7 seconds. -/
theorem rate_limit_retry_witness :
    get ("u") (rate_script [some 2, none] (7 : Nat)) = (Except.ok 7, 7) := by
  have h := (rate_limit_retry ("u") (7 : Nat)).1 [some 2, none] (by decide)
  have hsum : cooldown_sum [some 2, none] = 7 := by decide
  rw [hsum] at h
  exact h

/-! ## Whitespace-preservation lemmas for the chunker -/

/-- Helper: `visibleChars` distributes over append. -/
theorem visible_append (a b : Str) :
    visibleChars (a ++ b) = visibleChars a ++ visibleChars b :=
  List.filter_append a b

/-- Helper: `visibleChars` of the empty string. -/
theorem visible_nil : visibleChars ([] : Str) = [] := rfl

/-- Helper: dropping leading whitespace does not change the visible
characters. -/
theorem visible_dropWhile (s : Str) :
    visibleChars (s.dropWhile isPySpace) = visibleChars s := by
  induction s with
  | nil => rfl
  | cons c cs ih =>
    cases h : isPySpace c with
    | true =>
      rw [List.dropWhile_cons, if_pos h, ih]
      simp [visibleChars, List.filter_cons, h]
    | false => simp [List.dropWhile_cons, h]

/-- Helper: `visibleChars` commutes with reversal. -/
theorem visible_reverse (s : Str) : visibleChars s.reverse = (visibleChars s).reverse :=
  List.filter_reverse _ s

/-- Helper: stripping does not change the visible characters. -/
theorem visible_pyStrip (s : Str) : visibleChars (pyStrip s) = visibleChars s := by
  unfold pyStrip
  rw [visible_reverse, visible_dropWhile, visible_reverse, visible_dropWhile,
    List.reverse_reverse]

/-- Helper: a string whose strip is empty is all whitespace. -/
theorem visible_nil_of_pyStrip_nil (s : Str) (h : pyStrip s = []) : visibleChars s = [] := by
  rw [← visible_pyStrip, h]
  rfl

/-- Helper: the regex separator matched by `matchHeading` plus the remaining
input reassemble the scanned text. -/
theorem matchHeading_append (s sep rest' : Str) (h : matchHeading s = some (sep, rest')) :
    sep ++ rest' = s := by
  simp only [matchHeading] at h
  split at h
  · split at h
    next rest2 heq =>
      simp only [Option.some.injEq, Prod.mk.injEq] at h
      obtain ⟨h1, h2⟩ := h
      subst h1
      subst h2
      conv_rhs => rw [← List.takeWhile_append_dropWhile (fun c => c == '#') s, heq]
      simp only [List.append_assoc, List.cons_append, List.nil_append]
      rw [List.takeWhile_append_dropWhile]
    next => exact absurd h (by simp)
  · exact absurd h (by simp)

/-- Helper: one step of the scanner on an ordinary text character. -/
theorem splitAux_step_text (f : Nat) (c : Char) (rest acc : Str) (hc : c ≠ '\n') :
    splitAux (f+1) (c :: rest) acc = splitAux f rest (c :: acc) := by
  simp only [splitAux, if_neg hc]

/-- Helper: one step of the scanner at a heading separator. -/
theorem splitAux_step_heading (f : Nat) (rest acc sep rest' : Str)
    (hm : matchHeading rest = some (sep, rest')) :
    splitAux (f+1) ('\n' :: rest) acc =
      acc.reverse :: ('\n' :: sep) :: splitAux f rest' [] := by
  simp [splitAux, hm]

/-- Helper: one step of the scanner at a blank-line separator. -/
theorem splitAux_step_blank (f : Nat) (rest acc : Str)
    (hm : matchHeading rest = none) (hs : startsNewline rest = true) :
    splitAux (f+1) ('\n' :: rest) acc =
      acc.reverse :: ('\n' :: rest).takeWhile (fun x => x == '\n') ::
        splitAux f (('\n' :: rest).dropWhile (fun x => x == '\n')) [] := by
  simp [splitAux, hm, hs]

/-- Helper: one step of the scanner at a lone newline (no separator
matches). -/
theorem splitAux_step_nosep (f : Nat) (rest acc : Str)
    (hm : matchHeading rest = none) (hs : startsNewline rest = false) :
    splitAux (f+1) ('\n' :: rest) acc = splitAux f rest ('\n' :: acc) := by
  simp [splitAux, hm, hs]

/-- Helper: the block-split scanner returns pieces that reassemble the input
exactly (the separators are captured). -/
theorem splitAux_flatten : ∀ (fuel : Nat) (s acc : Str), s.length ≤ fuel →
    (splitAux fuel s acc).flatten = acc.reverse ++ s := by
  intro fuel
  induction fuel with
  | zero =>
    intro s acc h
    have hs : s = [] := List.length_eq_zero.mp (Nat.le_zero.mp h)
    subst hs
    simp [splitAux]
  | succ f ih =>
    intro s acc h
    cases s with
    | nil => simp [splitAux]
    | cons c rest =>
      have h' : rest.length ≤ f := by
        simp only [List.length_cons] at h
        omega
      by_cases hc : c = '\n'
      · subst hc
        cases hm : matchHeading rest with
        | some pr =>
          obtain ⟨sep, rest'⟩ := pr
          have happ := matchHeading_append rest sep rest' hm
          have hlen : rest'.length ≤ f := by
            have : rest'.length ≤ rest.length := by
              rw [← happ, List.length_append]
              omega
            omega
          rw [splitAux_step_heading f rest acc sep rest' hm]
          simp only [List.flatten_cons]
          rw [ih rest' [] hlen]
          simp [← happ]
        | none =>
          cases hs : startsNewline rest with
          | false =>
            rw [splitAux_step_nosep f rest acc hm hs]
            rw [ih rest ('\n' :: acc) h']
            simp
          | true =>
            have hdrop : (('\n' :: rest).dropWhile (fun x => x == '\n')).length ≤ f := by
              have h2 : ('\n' :: rest).dropWhile (fun x => x == '\n') =
                  rest.dropWhile (fun x => x == '\n') := by
                rw [List.dropWhile_cons]
                simp
              rw [h2]
              have h3 := (@List.dropWhile_suffix Char rest (fun x => x == '\n')).length_le
              omega
            rw [splitAux_step_blank f rest acc hm hs]
            simp only [List.flatten_cons]
            rw [ih _ [] hdrop]
            simp [List.takeWhile_append_dropWhile]
      · rw [splitAux_step_text f c rest acc hc]
        rw [ih rest (c :: acc) h']
        simp

/-- Helper: the content of `cleanGo` is the content of its inputs, up to
dropped all-whitespace buffers. -/
theorem cleanGo_visible : ∀ (bs : List Str) (buf : Str),
    visibleChars (cleanGo bs buf).flatten = visibleChars buf ++ visibleChars bs.flatten := by
  intro bs
  induction bs with
  | nil =>
    intro buf
    by_cases h : pyStrip buf = []
    · simp [cleanGo, h, visible_nil_of_pyStrip_nil buf h, visible_nil]
    · simp [cleanGo, h, visible_nil]
  | cons b bs ih =>
    intro buf
    by_cases hb : b = []
    · subst hb
      simp [cleanGo, ih]
    · by_cases hh : headingStart b = true
      · by_cases hbuf : pyStrip buf = []
        · simp [cleanGo, hb, hh, hbuf, ih, visible_nil_of_pyStrip_nil buf hbuf,
            visible_append]
        · simp [cleanGo, hb, hh, hbuf, ih, visible_append, List.append_assoc]
      · simp only [Bool.not_eq_true] at hh
        simp [cleanGo, hb, hh, ih, visible_append, List.append_assoc]

/-- Helper: the empty-block-list case of the packing loop. -/
theorem packGo_nil (t m : Nat) (chunks cur : List Str) (ct : Nat) :
    packGo t m [] chunks cur ct =
      if cur = [] then chunks else chunks ++ [pyStrip cur.flatten] := rfl

/-- Helper: packing step on an oversized block (hard-split emitted at once,
buffer untouched). -/
theorem packGo_step_oversize (t m : Nat) (block : Str) (rest chunks cur : List Str) (ct : Nat)
    (h : num_tokens block > m) :
    packGo t m (block :: rest) chunks cur ct =
      packGo t m rest (chunks ++ hardSplit block m) cur ct := by
  simp only [packGo]
  rw [if_pos h]

/-- Helper: packing step that pre-flushes the buffer and immediately flushes
the lone block (it already reaches the target). -/
theorem packGo_step_preflush_big (t m : Nat) (block : Str) (rest chunks cur : List Str)
    (ct : Nat) (h1 : ¬ num_tokens block > m) (h2 : ct + num_tokens block > m ∧ cur ≠ [])
    (h3 : num_tokens block ≥ t) :
    packGo t m (block :: rest) chunks cur ct =
      packGo t m rest (chunks ++ [pyStrip cur.flatten] ++ [pyStrip block]) [] 0 := by
  simp only [packGo]
  rw [if_neg h1, if_pos h2, if_pos h3]

/-- Helper: packing step that pre-flushes the buffer and starts a new buffer
with the block. -/
theorem packGo_step_preflush_small (t m : Nat) (block : Str) (rest chunks cur : List Str)
    (ct : Nat) (h1 : ¬ num_tokens block > m) (h2 : ct + num_tokens block > m ∧ cur ≠ [])
    (h3 : ¬ num_tokens block ≥ t) :
    packGo t m (block :: rest) chunks cur ct =
      packGo t m rest (chunks ++ [pyStrip cur.flatten]) [block] (num_tokens block) := by
  simp only [packGo]
  rw [if_neg h1, if_pos h2, if_neg h3]

/-- Helper: packing step that appends the block and flushes the buffer at the
target. -/
theorem packGo_step_target (t m : Nat) (block : Str) (rest chunks cur : List Str)
    (ct : Nat) (h1 : ¬ num_tokens block > m) (h2 : ¬ (ct + num_tokens block > m ∧ cur ≠ []))
    (h3 : ct + num_tokens block ≥ t) :
    packGo t m (block :: rest) chunks cur ct =
      packGo t m rest (chunks ++ [pyStrip (cur ++ [block]).flatten]) [] 0 := by
  simp only [packGo]
  rw [if_neg h1, if_neg h2, if_pos h3]

/-- Helper: packing step that just accumulates the block. -/
theorem packGo_step_accumulate (t m : Nat) (block : Str) (rest chunks cur : List Str)
    (ct : Nat) (h1 : ¬ num_tokens block > m) (h2 : ¬ (ct + num_tokens block > m ∧ cur ≠ []))
    (h3 : ¬ ct + num_tokens block ≥ t) :
    packGo t m (block :: rest) chunks cur ct =
      packGo t m rest chunks (cur ++ [block]) (ct + num_tokens block) := by
  simp only [packGo]
  rw [if_neg h1, if_neg h2, if_neg h3]

/-- Helper: when no block is oversized, the packing loop preserves the visible
characters of emitted chunks, buffer and pending blocks. -/
theorem packGo_visible (t m : Nat) : ∀ (blocks chunks cur : List Str) (ct : Nat),
    (∀ b ∈ blocks, num_tokens b ≤ m) →
    visibleChars (packGo t m blocks chunks cur ct).flatten =
      visibleChars chunks.flatten ++ visibleChars cur.flatten ++
        visibleChars blocks.flatten := by
  intro blocks
  induction blocks with
  | nil =>
    intro chunks cur ct _
    rw [packGo_nil]
    by_cases hcur : cur = []
    · simp [hcur, visible_nil]
    · simp [hcur, List.flatten_append, visible_append, visible_pyStrip, visible_nil]
  | cons block rest ih =>
    intro chunks cur ct hall
    have hb : num_tokens block ≤ m := hall block (by simp)
    have hrest : ∀ b ∈ rest, num_tokens b ≤ m := fun b hb' => hall b (by simp [hb'])
    have hno : ¬ num_tokens block > m := by omega
    by_cases h2 : ct + num_tokens block > m ∧ cur ≠ []
    · by_cases h3 : num_tokens block ≥ t
      · rw [packGo_step_preflush_big t m block rest chunks cur ct hno h2 h3]
        rw [ih _ _ _ hrest]
        simp [List.flatten_append, List.flatten_cons, visible_append, visible_pyStrip,
          visible_nil, List.append_assoc]
      · rw [packGo_step_preflush_small t m block rest chunks cur ct hno h2 h3]
        rw [ih _ _ _ hrest]
        simp [List.flatten_append, List.flatten_cons, visible_append, visible_pyStrip,
          visible_nil, List.append_assoc]
    · by_cases h3 : ct + num_tokens block ≥ t
      · rw [packGo_step_target t m block rest chunks cur ct hno h2 h3]
        rw [ih _ _ _ hrest]
        simp [List.flatten_append, List.flatten_cons, visible_append, visible_pyStrip,
          visible_nil, List.append_assoc]
      · rw [packGo_step_accumulate t m block rest chunks cur ct hno h2 h3]
        rw [ih _ _ _ hrest]
        simp [List.flatten_append, List.flatten_cons, visible_append, visible_pyStrip,
          visible_nil, List.append_assoc]

/-- Helper: the final tidy preserves visible characters (dropped chunks are
all-whitespace). -/
theorem finalTidy_visible : ∀ (cs : List Str),
    visibleChars (finalTidy cs).flatten = visibleChars cs.flatten := by
  intro cs
  induction cs with
  | nil => rfl
  | cons c cs ih =>
    by_cases h : c ≠ [] ∧ pyStrip c ≠ []
    · simp [finalTidy, h, visible_append, visible_pyStrip, ih]
    · have hv : visibleChars c = [] := by
        rcases not_and_or.mp h with h1 | h2
        · have hc : c = [] := not_not.mp h1
          simp [hc, visibleChars]
        · exact visible_nil_of_pyStrip_nil c (not_not.mp h2)
      simp [finalTidy, h, visible_append, hv, ih]

/-- C6 counterexample: a document with three heading blocks whose middle
block exceeds `max_tokens` — the hard-split path emits the middle block's
chunk before the pending buffer is flushed, so the concatenated chunks do
not reproduce the document even after discarding all whitespace (content is
reordered), refuting the claim for `chunk_text` as a whole. -/
theorem chunk_reorder_counterexample :
    visibleChars ((chunk_text c6_bad_input 100 4).flatten) ≠ visibleChars c6_bad_input := by
  decide

/-- C6 amended: provided every cleaned block's token count is at most
`max_tokens` (so the reordering hard-split path never runs), concatenating
the returned chunks in order reproduces the document's non-whitespace
character sequence exactly — content and order are preserved, with only
whitespace differing at block boundaries. -/
theorem chunk_reconstruction_no_oversize (markdown : Str) (target_tokens max_tokens : Nat)
    (h : ∀ b ∈ cleaned_blocks markdown, num_tokens b ≤ max_tokens) :
    visibleChars (chunk_text markdown target_tokens max_tokens).flatten =
      visibleChars markdown := by
  unfold chunk_text
  rw [finalTidy_visible, packGo_visible target_tokens max_tokens _ [] [] 0 h]
  simp only [List.flatten_nil]
  have h1 : visibleChars ([] : Str) = [] := rfl
  rw [h1]
  simp only [List.nil_append]
  unfold cleaned_blocks
  rw [cleanGo_visible, h1, List.nil_append]
  have h2 : (blockSplit markdown).flatten = markdown := by
    unfold blockSplit
    have := splitAux_flatten markdown.length markdown [] (le_refl _)
    simpa using this
  rw [h2]

/-- C6 amended witness: the theorem applied to a concrete two-block document
at the default parameters. -/
theorem chunk_reconstruction_no_oversize_witness :
    visibleChars (chunk_text c6_ok_input 800 1200).flatten = visibleChars c6_ok_input :=
  chunk_reconstruction_no_oversize c6_ok_input 800 1200 (by decide)

/-! ## Symbolic evaluation of `chunk_text` on the C1 failing input -/

/-- Helper: the block-split scanner is the identity split on text containing
no newline. -/
theorem splitAux_no_newline : ∀ (s : Str) (fuel : Nat) (acc : Str),
    (∀ c ∈ s, c ≠ '\n') → splitAux fuel s acc = [acc.reverse ++ s] := by
  intro s
  induction s with
  | nil =>
    intro fuel acc _
    cases fuel <;> simp [splitAux]
  | cons c rest ih =>
    intro fuel acc h
    cases fuel with
    | zero => simp [splitAux]
    | succ f =>
      have hc : c ≠ '\n' := h c (by simp)
      rw [splitAux_step_text f c rest acc hc]
      rw [ih f (c :: acc) (fun x hx => h x (by simp [hx]))]
      simp

/-- Helper: no character of the C1 building block is a newline or a
backslash. -/
theorem c1_block_chars : ∀ c ∈ c1_block, c ≠ '\n' ∧ c ≠ '\\' := by decide

/-- Helper: every character of the C1 input is a character of its building
block. -/
theorem c1_mem_block (c : Char) (h : c ∈ c1_input) : c ∈ c1_block := by
  unfold c1_input at h
  rw [List.mem_flatten] at h
  obtain ⟨l, hl, hc⟩ := h
  rwa [List.eq_of_mem_replicate hl] at hc

/-- Helper: head decomposition of the C1 input. -/
theorem c1_cons :
    c1_input = 'a' :: ("aaaaaa. a".toList ++ (List.replicate 499 c1_block).flatten) := by
  show (List.replicate 500 c1_block).flatten = _
  rw [show (500 : Nat) = 499 + 1 from rfl, List.replicate_succ, List.flatten_cons]
  rfl

/-- Helper: last-character decomposition of the C1 input. -/
theorem c1_concat :
    c1_input = ((List.replicate 499 c1_block).flatten ++ "aaaaaaa. ".toList) ++ ['a'] := by
  show (List.replicate 500 c1_block).flatten = _
  rw [show (500 : Nat) = 499 + 1 from rfl, List.replicate_add, List.flatten_append,
    List.append_assoc]
  congr 1

/-- Helper: strip is the identity when neither end is whitespace. -/
theorem pyStrip_eq_self (s : Str) (h1 : s.dropWhile isPySpace = s)
    (h2 : List.rdropWhile isPySpace s = s) : pyStrip s = s := by
  show List.rdropWhile isPySpace (s.dropWhile isPySpace) = s
  rw [h1, h2]

/-- Helper: the C1 input starts and ends with the letter a, so strip is the
identity on it. -/
theorem pyStrip_c1 : pyStrip c1_input = c1_input := by
  apply pyStrip_eq_self
  · conv_lhs => rw [c1_cons]
    rw [List.dropWhile_cons, if_neg (by decide)]
    exact c1_cons.symm
  · conv_lhs => rw [c1_concat]
    rw [List.rdropWhile_concat_neg isPySpace _ 'a' (by decide)]
    exact c1_concat.symm

/-- Helper: the C1 input is non-empty. -/
theorem c1_ne_nil : c1_input ≠ [] := by
  rw [c1_cons]
  exact List.cons_ne_nil _ _

/-- Helper: the C1 input is not a heading block. -/
theorem headingStart_c1 : headingStart c1_input = false := by
  unfold headingStart
  rw [pyStrip_c1, c1_cons]
  rfl

/-- Helper: the C1 input has no newline, so the regex block split returns it
as the single piece. -/
theorem blockSplit_c1 : blockSplit c1_input = [c1_input] := by
  unfold blockSplit
  rw [splitAux_no_newline c1_input c1_input.length []
    (fun c hc => (c1_block_chars c (c1_mem_block c hc)).1)]
  rw [List.reverse_nil, List.nil_append]

/-- Helper: cleaning step on a non-heading block. -/
theorem cleanGo_step_text (bs : List Str) (b buf : Str) (hb : b ≠ [])
    (hh : headingStart b = false) :
    cleanGo (b :: bs) buf = cleanGo bs (buf ++ b) := by
  simp [cleanGo, hb, hh]

/-- Helper: final cleaning step on a buffer that is not all-whitespace. -/
theorem cleanGo_nil_of_strip (buf : Str) (h : pyStrip buf ≠ []) :
    cleanGo [] buf = [buf] := by
  simp [cleanGo, h]

/-- Helper: the C1 input forms a single cleaned block. -/
theorem cleaned_blocks_c1 : cleaned_blocks c1_input = [c1_input] := by
  unfold cleaned_blocks
  rw [blockSplit_c1]
  rw [cleanGo_step_text [] c1_input [] c1_ne_nil headingStart_c1]
  rw [List.nil_append]
  rw [cleanGo_nil_of_strip c1_input (by rw [pyStrip_c1]; exact c1_ne_nil)]

/-- Helper: the sentence-split scanner is the identity split on text
containing no backslash — ordinary sentence boundaries never match the
source's regex. -/
theorem sentSplitAux_no_backslash : ∀ (s : Str) (fuel : Nat) (prev : Option Char) (acc : Str),
    (∀ c ∈ s, c ≠ '\\') → sentSplitAux fuel s prev acc = [acc.reverse ++ s] := by
  intro s
  induction s with
  | nil =>
    intro fuel prev acc _
    cases fuel <;> simp [sentSplitAux]
  | cons c rest ih =>
    intro fuel prev acc h
    cases fuel with
    | zero => simp [sentSplitAux]
    | succ f =>
      have hc : c ≠ '\\' := h c (by simp)
      have hcb : (c == '\\') = false := by simp [hc]
      have hstep : sentSplitAux (f+1) (c :: rest) prev acc =
          sentSplitAux f rest (some c) (c :: acc) := by
        simp [sentSplitAux, hcb]
      rw [hstep, ih f (some c) (c :: acc) (fun x hx => h x (by simp [hx]))]
      simp

/-- Helper: the sentence split leaves the C1 input whole. -/
theorem sentence_split_c1 : sentence_split c1_input = [c1_input] := by
  unfold sentence_split
  rw [sentSplitAux_no_backslash c1_input c1_input.length none []
    (fun c hc => (c1_block_chars c (c1_mem_block c hc)).2)]
  rw [List.reverse_nil, List.nil_append]

/-- Helper: the C1 input is 5000 characters long. -/
theorem c1_length : c1_input.length = 5000 := by
  have hb : c1_block.length = 10 := by decide
  show ((List.replicate 500 c1_block).flatten).length = 5000
  rw [List.length_flatten, List.map_replicate, hb, List.sum_replicate, smul_eq_mul]

/-- Helper: the fallback token count of the C1 input is 1250, which exceeds
the 1200-token bound. -/
theorem num_tokens_c1 : num_tokens c1_input = 1250 := by
  unfold num_tokens
  rw [c1_length]
  rfl

/-- Helper: joining a single piece is the identity. -/
theorem intercalate_singleton (x : Str) : List.intercalate [' '] [x] = x := by
  simp [List.intercalate, List.intersperse_singleton]

/-- Helper: the hard-split path returns the C1 input as one oversized chunk:
the sentence split finds nothing and the single "sentence" is emitted
whole. -/
theorem hardSplit_c1 : hardSplit c1_input 1200 = [c1_input] := by
  unfold hardSplit
  rw [sentence_split_c1]
  simp only [packSentGo]
  rw [if_neg (fun hcon => hcon.2 rfl)]
  simp only [packSentGo, List.nil_append]
  rw [if_neg (List.cons_ne_nil c1_input [])]
  rw [intercalate_singleton, pyStrip_c1]

/-- Helper: keeping step of the final tidy. -/
theorem finalTidy_keep (c : Str) (cs : List Str) (h : c ≠ [] ∧ pyStrip c ≠ []) :
    finalTidy (c :: cs) = pyStrip c :: finalTidy cs := by
  simp [finalTidy, h]

/-- Helper: `chunk_text` at the default parameters returns the whole C1
input as its single chunk. -/
theorem chunk_text_c1 : chunk_text c1_input 800 1200 = [c1_input] := by
  unfold chunk_text
  rw [cleaned_blocks_c1]
  rw [packGo_step_oversize 800 1200 c1_input [] [] [] 0 (by rw [num_tokens_c1]; norm_num)]
  rw [packGo_nil, if_pos rfl, List.nil_append, hardSplit_c1]
  rw [finalTidy_keep c1_input [] ⟨c1_ne_nil, by rw [pyStrip_c1]; exact c1_ne_nil⟩]
  rw [pyStrip_c1]
  rfl

/-- C1: refuted on the code — `chunk_text` at `target_tokens = 800`,
`max_tokens = 1200` returns the 5000-character single-block input as one
chunk of 1250 tokens, exceeding `max_tokens`, even though the block contains
ordinary sentence boundaries (a period followed by a space), because the
source's sentence-split regex (a raw string containing a doubled backslash)
matches a literal backslash followed by the letter s rather than whitespace,
so the promised hard split at sentence boundaries never happens. -/
theorem oversized_chunk_eval :
    chunk_text c1_input 800 1200 = [c1_input] ∧
    1200 < num_tokens c1_input ∧
    (∃ l1 l2 : Str, c1_input = l1 ++ '.' :: ' ' :: l2) := by
  refine ⟨chunk_text_c1, ?_, ?_⟩
  · rw [num_tokens_c1]
    norm_num
  · refine ⟨"aaaaaaa".toList, ("a".toList ++ (List.replicate 499 c1_block).flatten), ?_⟩
    rw [c1_cons]
    rfl
